import Mathlib

/-!
Verification development for `torchdistill/models/special.py`.

The Python module is shallowly embedded below:
* the process-wide special-module registry and its `register`/`get`/`build`
  functions become pure functions over an explicit registry map;
* Python keyword-argument dictionaries become association lists
  `List (String × V)`; the `TypeError` raised by a duplicate keyword in
  `f(**kwargs, **params)` becomes an `Except` error;
* tensors become either flat row-major structures (`shape` list plus a
  rational data list) or `Fin`-indexed functions, depending on the operation;
* the learned parameters of layers (weights, biases, position tables) are
  abstract function arguments, since their values are randomly initialised;
* `float('-inf')` entries of attention masks are modelled by `⊥ : WithBot ℚ`,
  and `exp` inside softmax is an abstract function argument with
  `exp (-∞) = 0`.
-/

/-! ## Special-module registry (`register_special_module`, `get_special_module`,
`build_special_module`) -/

/-- The process-wide `SPECIAL_CLASS_DICT`: a map from class names to
constructors.  A constructor consumes the keyword arguments of the call and
produces an instance (type `I`). -/
def Registry (V I : Type) : Type := String → Option (List (String × V) → I)

/-- `register_special_module`: `SPECIAL_CLASS_DICT[cls.__name__] = cls`.
The Python decorator mutates the global dict and returns `cls`; we model the
mutation by returning the updated registry. -/
def register_special_module {V I : Type} (reg : Registry V I) (name : String)
    (cls : List (String × V) → I) : Registry V I :=
  fun n => if n = name then some cls else reg n

/-- `get_special_module(class_name, *args, **kwargs)`: if `class_name` is not
registered, log a message and return `None`; otherwise construct and return an
instance with the supplied arguments. -/
def get_special_module {V I : Type} (reg : Registry V I) (class_name : String)
    (kwargs : List (String × V)) : Option I :=
  match reg class_name with
  | none => none
  | some cls => some (cls kwargs)

/-- The union `f(**kwargs, **params)` performed at the call site of
`get_special_module` inside `build_special_module`.  A key occurring in both
dictionaries raises `TypeError: got multiple values for keyword argument` in
Python, modelled by the error branch. -/
def mergeKwargs {V : Type} (kwargs params : List (String × V)) :
    Except String (List (String × V)) :=
  if kwargs.any fun kv => params.any fun pv => pv.1 == kv.1 then
    Except.error "got multiple values for keyword argument"
  else
    Except.ok (kwargs ++ params)

/-- The nested optional `special: {type: ..., params: ...}` entry of a model
configuration. -/
structure SpecialConfig (V : Type) where
  type : Option String
  params : Option (List (String × V))

/-- A model configuration: only the `special` key is read by
`build_special_module` (`model_config.get('special', dict())`). -/
structure ModelConfig (V : Type) where
  special : Option (SpecialConfig V)

/-- `build_special_module(model_config, **kwargs)`: read
`special.type`; if absent return `None`; otherwise delegate to
`get_special_module` with the union of `kwargs` and `special.params`. -/
def build_special_module {V I : Type} (reg : Registry V I)
    (model_config : ModelConfig V) (kwargs : List (String × V)) :
    Except String (Option I) :=
  let special_model_config := model_config.special.getD ⟨none, none⟩
  match special_model_config.type with
  | none => Except.ok none
  | some special_model_type =>
    let special_model_params_config := special_model_config.params.getD []
    (mergeKwargs kwargs special_model_params_config).map fun merged =>
      get_special_module reg special_model_type merged

/-! ## `Paraphraser4FactorTransfer` -/

/-- `nn.Sequential`: apply the modules in order. -/
def run_sequential {T : Type} (modules : List (T → T)) (z : T) : T :=
  modules.foldl (fun acc m => m acc) z

/-- `Paraphraser4FactorTransfer.make_tail_modules`: optional batch-norm
followed by `LeakyReLU(0.1)`.  The layers themselves are abstract functions. -/
def make_tail_modules {T : Type} (bn leaky_relu : T → T) (uses_bn : Bool) :
    List (T → T) :=
  if uses_bn then [bn, leaky_relu] else [leaky_relu]

/-- `Paraphraser4FactorTransfer.make_enc_modules`: a convolution followed by
the tail modules. -/
def make_enc_modules {T : Type} (conv bn leaky_relu : T → T) (uses_bn : Bool) :
    List (T → T) :=
  conv :: make_tail_modules bn leaky_relu uses_bn

/-- `Paraphraser4FactorTransfer.make_dec_modules`: a transposed convolution
followed by the tail modules. -/
def make_dec_modules {T : Type} (convt bn leaky_relu : T → T) (uses_bn : Bool) :
    List (T → T) :=
  convt :: make_tail_modules bn leaky_relu uses_bn

/-- The paraphraser: a three-stage encoder, a three-stage decoder, and the
`nn.Module.training` flag. -/
structure Paraphraser4FactorTransfer (T : Type) where
  training : Bool
  encoder : List (T → T)
  decoder : List (T → T)

/-- `Paraphraser4FactorTransfer.__init__`: the encoder is the concatenation of
three encoder stages, the decoder of three decoder stages, mirroring the two
`nn.Sequential` constructions.  The individual convolution/batch-norm layers
are abstract arguments. -/
def Paraphraser4FactorTransfer.init {T : Type} (training uses_bn : Bool)
    (enc_conv1 enc_bn1 enc_conv2 enc_bn2 enc_conv3 enc_bn3
      dec_convt1 dec_bn1 dec_convt2 dec_bn2 dec_convt3 dec_bn3
      leaky_relu : T → T) : Paraphraser4FactorTransfer T :=
  { training := training
    encoder :=
      make_enc_modules enc_conv1 enc_bn1 leaky_relu uses_bn ++
      make_enc_modules enc_conv2 enc_bn2 leaky_relu uses_bn ++
      make_enc_modules enc_conv3 enc_bn3 leaky_relu uses_bn
    decoder :=
      make_dec_modules dec_convt1 dec_bn1 leaky_relu uses_bn ++
      make_dec_modules dec_convt2 dec_bn2 leaky_relu uses_bn ++
      make_dec_modules dec_convt3 dec_bn3 leaky_relu uses_bn }

/-- `Paraphraser4FactorTransfer.forward`: in training mode run the decoder on
the encoder output, otherwise run the encoder only. -/
def Paraphraser4FactorTransfer.forward {T : Type}
    (p : Paraphraser4FactorTransfer T) (z : T) : T :=
  if p.training then run_sequential p.decoder (run_sequential p.encoder z)
  else run_sequential p.encoder z

/-! ## `HeadRCNN.__init__` and `Linear4CCKD.__init__` -/

/-- The state built by `HeadRCNN.__init__`: the backbone's transform stage and
the redesigned backbone sub-sequence. -/
structure HeadRCNN (M T : Type) where
  transform : T
  seq : M

/-- `HeadRCNN.__init__`: take `teacher_model` from the keyword arguments, fall
back to it when `student_model` is absent, and raise `ValueError` when neither
is given.  `redesign_model` is an external collaborator, abstracted as a
function argument; so is the extraction of the backbone's `transform`. -/
def HeadRCNN.init {M T C : Type} (transformOf : M → T)
    (redesign_model : M → C → M) (head_rcnn : C)
    (teacher_model student_model : Option M) : Except String (HeadRCNN M T) :=
  let tmp_ref_model := teacher_model
  let ref_model := match student_model with
    | some s => some s
    | none => tmp_ref_model
  match ref_model with
  | none => Except.error "Either student_model or teacher_model has to be given."
  | some m => Except.ok { transform := transformOf m, seq := redesign_model m head_rcnn }

/-- The state built by `Linear4CCKD.__init__`. -/
structure Linear4CCKD (M L : Type) where
  model : Option M
  is_teacher : Bool
  input_module_path : String
  input_module_io : String
  linear : L

/-- `Linear4CCKD.__init__`: no validation is performed; with neither backbone
supplied, `is_teacher` is false and the absent student model is handed to the
external `wrap_if_distributed` collaborator (abstracted as a function on
`Option M`; an explicit `None` keyword argument is modelled as absence).
The construction itself contains no `raise`, hence the `Except.ok` result. -/
def Linear4CCKD.init {M L : Type} (wrap_if_distributed : Option M → Option M)
    (wrapLinear : L → L) (input_module_path input_module_io : String)
    (linear_obj : L) (teacher_model student_model : Option M) :
    Except String (Linear4CCKD M L) :=
  let is_teacher := teacher_model.isSome
  let student_model := if is_teacher then student_model
    else wrap_if_distributed student_model
  Except.ok
    { model := if is_teacher then teacher_model else student_model
      is_teacher := is_teacher
      input_module_path := input_module_path
      input_module_io := input_module_io
      linear := wrapLinear linear_obj }


/-! ## `CyclicShift` (`torch.roll` on the two spatial dimensions) -/

/-- One-dimensional `torch.roll` on an axis of size `n`: element `i` of the
output is element `(i - s) mod n` of the input. -/
def torchRollIndex (n : Nat) (s : Int) (i : Fin n) : Fin n :=
  ⟨(((i : Int) - s) % (n : Int)).toNat, by
    have hn : (0 : Int) < (n : Int) := by exact_mod_cast i.pos
    have h1 : 0 ≤ ((i : Int) - s) % (n : Int) := Int.emod_nonneg _ (by omega)
    have h2 : ((i : Int) - s) % (n : Int) < (n : Int) := Int.emod_lt_of_pos _ hn
    omega⟩

/-- `CyclicShift.forward`: `torch.roll(x, shifts=(d, d), dims=(1, 2))` on a
tensor of shape `(batch, height, width, channels)`. -/
def CyclicShift.forward {b h w c : Nat} (displacement : Int)
    (x : Fin b → Fin h → Fin w → Fin c → ℚ) :
    Fin b → Fin h → Fin w → Fin c → ℚ :=
  fun bi i j ci =>
    x bi (torchRollIndex h displacement i) (torchRollIndex w displacement j) ci

/-! ## `get_relative_distances` and the relative position index table -/

/-- `get_relative_distances(window_size)`: the pairwise differences
`indices[j] - indices[i]` of the window coordinates
`[[x, y] for x in range(window_size) for y in range(window_size)]`. -/
def get_relative_distances (window_size : Nat) : List (List (Int × Int)) :=
  let indices : List (Int × Int) :=
    (List.range window_size).flatMap fun x =>
      (List.range window_size).map fun y => (Int.ofNat x, Int.ofNat y)
  indices.map fun pi_ => indices.map fun pj_ => (pj_.1 - pi_.1, pj_.2 - pi_.2)

/-- `self.relative_indices = get_relative_distances(window_size) + window_size - 1`. -/
def relative_indices (window_size : Nat) : List (List (Int × Int)) :=
  (get_relative_distances window_size).map fun row =>
    row.map fun p =>
      (p.1 + (window_size : Int) - 1, p.2 + (window_size : Int) - 1)

/-- The range check of claim C4, as an executable predicate: every relative
offset lies in `[-(window_size - 1), window_size - 1]` per axis, and every
entry of `relative_indices` lies in `[0, 2 * window_size - 2]` per axis. -/
def relativeDistanceBoundsCheck (window_size : Nat) : Bool :=
  ((get_relative_distances window_size).all fun row => row.all fun p =>
    decide (-((window_size : Int) - 1) ≤ p.1 ∧ p.1 ≤ (window_size : Int) - 1 ∧
      -((window_size : Int) - 1) ≤ p.2 ∧ p.2 ≤ (window_size : Int) - 1)) &&
  ((relative_indices window_size).all fun row => row.all fun q =>
    decide (0 ≤ q.1 ∧ q.1 ≤ 2 * (window_size : Int) - 2 ∧
      0 ≤ q.2 ∧ q.2 ≤ 2 * (window_size : Int) - 2))

/-! ## `AttnEmbed.__init__` -/

/-- The object stored for one embedding key: `nn.Identity()` on the teacher
path, or an `Embed(**embed_params)` sub-network (recorded with the parameters
it was built from) on the student path. -/
inductive EmbedObj (P : Type) where
  | identity : EmbedObj P
  | fresh (params : P) : EmbedObj P
deriving DecidableEq

/-- Python's substring test `sub in s`. -/
def containsSub (sub s : String) : Bool :=
  decide (sub.toList <:+: s.toList)

/-- The loop body of `AttnEmbed.__init__` over `embedings.items()`.  The local
variable `embed` persists across iterations (the `Option` accumulator); on the
student path it is only assigned when the key contains `'query'` or `'value'`,
so a key containing neither either reuses the previous value or, when the
variable was never assigned, raises `UnboundLocalError`. -/
def AttnEmbed.embedLoop {P : Type} (is_teacher : Bool) :
    Option (EmbedObj P) → List (String × P) →
    Except String (List (String × EmbedObj P))
  | _, [] => Except.ok []
  | embedVar, (embed_key, embed_params) :: rest =>
    let embedVar :=
      if is_teacher then some EmbedObj.identity
      else if containsSub "query" embed_key then
        some (EmbedObj.fresh embed_params)
      else if containsSub "value" embed_key then
        some (EmbedObj.fresh embed_params)
      else embedVar
    match embedVar with
    | none => Except.error "local variable referenced before assignment"
    | some e =>
      (AttnEmbed.embedLoop is_teacher (some e) rest).map fun tail =>
        (embed_key, e) :: tail

/-- `AttnEmbed.__init__`: run the loop with the local variable `embed` not yet
bound, producing the entries stored in `self.embed_dict`. -/
def AttnEmbed.init {P : Type} (is_teacher : Bool)
    (embedings : List (String × P)) :
    Except String (List (String × EmbedObj P)) :=
  AttnEmbed.embedLoop is_teacher none embedings

/-- A key is handled on the student path exactly when it contains `'query'`
or `'value'`. -/
def goodStudentKey (k : String) : Bool :=
  containsSub "query" k || containsSub "value" k


/-! ## `Normalizer4CRD` -/

/-- `z.pow(power).sum(1, keepdim=True).pow(1.0 / power)`: the L_p norm of a
feature vector, with the fractional power interpreted over the reals. -/
noncomputable def lp_norm (power : Nat) {n : Nat} (z : Fin n → ℝ) : ℝ :=
  (∑ i, z i ^ power) ^ ((1 : ℝ) / (power : ℝ))

/-- `out = z.div(norm)`: the normalization step of `Normalizer4CRD.forward`. -/
noncomputable def normalize_step (power : Nat) {n : Nat} (z : Fin n → ℝ) :
    Fin n → ℝ :=
  fun i => z i / lp_norm power z

/-- `Normalizer4CRD`: a linear layer (kept abstract) followed by L_p
normalization with a configurable power (default 2 in the source). -/
structure Normalizer4CRD (m n : Nat) where
  linear : (Fin m → ℝ) → (Fin n → ℝ)
  power : Nat

/-- `Normalizer4CRD.forward`: `z = self.linear(x)` followed by the
normalization step. -/
noncomputable def Normalizer4CRD.forward {m n : Nat} (nz : Normalizer4CRD m n)
    (x : Fin m → ℝ) : Fin n → ℝ :=
  normalize_step nz.power (nz.linear x)

/-! ## Flat row-major tensors for `WindowAttention.forward`

The attention pipeline is modelled on flat tensors: a shape list and a
row-major rational data list.  Attention logits pass through `WithBot ℚ`,
where `⊥` models the `-inf` mask entries. -/

/-- A tensor with rational entries in row-major order. -/
structure Tensor where
  shape : List Nat
  data : List ℚ
deriving DecidableEq

/-- A tensor whose entries may be `-inf` (`⊥`). -/
structure TensorW where
  shape : List Nat
  data : List (WithBot ℚ)
deriving DecidableEq

/-- Size of dimension `i` (0 for a missing dimension). -/
def sizeAt (s : List Nat) (i : Nat) : Nat := s.getD i 0

/-- Size of the last dimension. -/
def lastDim (s : List Nat) : Nat := s.getD (s.length - 1) 0

/-- Embed the rational entries into `WithBot ℚ` (no entry is `-inf` yet). -/
def Tensor.toW (x : Tensor) : TensorW :=
  { shape := x.shape, data := x.data.map fun q : ℚ => (q : WithBot ℚ) }

/-- `torch.roll(x, shifts=(d, d), dims=(1, 2))` on a flat tensor whose first
three dimensions are `(batch, height, width)`: output entry `(b, i, j, rest)`
is input entry `(b, (i - d) mod height, (j - d) mod width, rest)`. -/
def Tensor.cyclicShift (displacement : Int) (x : Tensor) : Tensor :=
  let n1 := sizeAt x.shape 1
  let n2 := sizeAt x.shape 2
  let tail := (x.shape.drop 3).prod
  { shape := x.shape
    data := (List.range x.shape.prod).map fun f =>
      let ci := f % tail
      let f1 := f / tail
      let j := f1 % n2
      let f2 := f1 / n2
      let i := f2 % n1
      let bi := f2 / n1
      let i2 := (((i : Int) - displacement) % (n1 : Int)).toNat
      let j2 := (((j : Int) - displacement) % (n2 : Int)).toNat
      x.data.getD (((bi * n1 + i2) * n2 + j2) * tail + ci) 0 }

/-- `nn.Linear` applied to the last dimension: `y = x Wᵀ + b` with weight
`W : out_features × in_features`.  A bias-free layer passes the zero bias. -/
def linearLayer (weight : Nat → Nat → ℚ) (bias : Nat → ℚ)
    (in_features out_features : Nat) (x : Tensor) : Tensor :=
  let lead := x.shape.dropLast.prod
  { shape := x.shape.dropLast ++ [out_features]
    data := (List.range (lead * out_features)).map fun f =>
      let r := f / out_features
      let o := f % out_features
      (∑ i ∈ Finset.range in_features,
        weight o i * x.data.getD (r * in_features + i) 0) + bias o }

/-- Piece `k` of `.chunk(3, dim=-1)` (the last dimension is divisible by 3 at
the call site, where it is `inner_dim * 3`). -/
def chunkPiece (k : Nat) (x : Tensor) : Tensor :=
  let full := lastDim x.shape
  let c := full / 3
  let lead := x.shape.dropLast.prod
  { shape := x.shape.dropLast ++ [c]
    data := (List.range (lead * c)).map fun f =>
      x.data.getD ((f / c) * full + k * c + f % c) 0 }

/-- `rearrange(t, 'b (nw_h w_h) (nw_w w_w) (h d) -> b h (nw_h nw_w) (w_h w_w) d',
h=heads, w_h=window_size, w_w=window_size)`. -/
def toWindows (heads window_size : Nat) (x : Tensor) : Tensor :=
  let b := sizeAt x.shape 0
  let n_h := sizeAt x.shape 1
  let n_w := sizeAt x.shape 2
  let hd := sizeAt x.shape 3
  let d := hd / heads
  let nw_h := n_h / window_size
  let nw_w := n_w / window_size
  { shape := [b, heads, nw_h * nw_w, window_size * window_size, d]
    data := (List.range
        (b * heads * (nw_h * nw_w) * (window_size * window_size) * d)).map
      fun f =>
        let di := f % d
        let f1 := f / d
        let pos := f1 % (window_size * window_size)
        let f2 := f1 / (window_size * window_size)
        let wi := f2 % (nw_h * nw_w)
        let f3 := f2 / (nw_h * nw_w)
        let hi := f3 % heads
        let bi := f3 / heads
        let nwhI := wi / nw_w
        let nwwI := wi % nw_w
        let whI := pos / window_size
        let wwI := pos % window_size
        x.data.getD
          (((bi * n_h + (nwhI * window_size + whI)) * n_w +
            (nwwI * window_size + wwI)) * hd + (hi * d + di)) 0 }

/-- `einsum('b h w i d, b h w j d -> b h w i j', q, k) * scale`. -/
def dotsQK (scale : ℚ) (q k : Tensor) : Tensor :=
  let b := sizeAt q.shape 0
  let h := sizeAt q.shape 1
  let w := sizeAt q.shape 2
  let n := sizeAt q.shape 3
  let d := sizeAt q.shape 4
  { shape := [b, h, w, n, n]
    data := (List.range (b * h * w * n * n)).map fun f =>
      let j := f % n
      let f1 := f / n
      let i := f1 % n
      let r := f1 / n
      (∑ di ∈ Finset.range d,
        q.data.getD ((r * n + i) * d + di) 0 *
          k.data.getD ((r * n + j) * d + di) 0) * scale }

/-- Broadcast addition of a position-bias table indexed by the last two
dimensions (both of size `window_size²`). -/
def addPosBias (pb : Nat → Nat → ℚ) (x : Tensor) : Tensor :=
  let n := lastDim x.shape
  { shape := x.shape
    data := (List.range x.shape.prod).map fun f =>
      x.data.getD f 0 + pb (f / n % n) (f % n) }

/-- The position bias of the relative branch:
`self.pos_embedding[self.relative_indices[:, :, 0], self.relative_indices[:, :, 1]]`.
By claim C4 the precomputed indices are non-negative, so `Int.toNat` is
exact on them. -/
def relPosLookup (pos_embedding : Nat → Nat → ℚ) (window_size : Nat)
    (i j : Nat) : ℚ :=
  let q := ((relative_indices window_size).getD i []).getD j (0, 0)
  pos_embedding q.1.toNat q.2.toNat

/-- `create_mask(window_size, displacement, upper_lower, left_right)` as a
function of the flat row/column indices of the `window_size² × window_size²`
mask.  Entries set to `float('-inf')` become `⊥`. -/
def create_mask (window_size displacement : Nat)
    (upper_lower left_right : Bool) (i j : Nat) : WithBot ℚ :=
  let cut := window_size * window_size - displacement * window_size
  let base : WithBot ℚ :=
    if upper_lower ∧ ((cut ≤ i ∧ j < cut) ∨ (i < cut ∧ cut ≤ j)) then ⊥ else 0
  let w1 := i % window_size
  let w2 := j % window_size
  let cut2 := window_size - displacement
  if left_right ∧ ((cut2 ≤ w1 ∧ w2 < cut2) ∨ (w1 < cut2 ∧ cut2 ≤ w2)) then ⊥
  else base

/-- The two in-place mask additions of the shifted branch:
`dots[:, :, -nw_w:] += upper_lower_mask` and
`dots[:, :, nw_w-1::nw_w] += left_right_mask`, on logits of shape
`(b, heads, num_windows, window_size², window_size²)`. -/
def applyMasks (nw_w : Nat) (upper_lower_mask left_right_mask :
    Nat → Nat → WithBot ℚ) (t : TensorW) : TensorW :=
  let nw := sizeAt t.shape 2
  let n3 := sizeAt t.shape 3
  let n4 := sizeAt t.shape 4
  { shape := t.shape
    data := (List.range t.shape.prod).map fun f =>
      let j := f % n4
      let f1 := f / n4
      let i := f1 % n3
      let f2 := f1 / n3
      let wi := f2 % nw
      let v := t.data.getD f ⊥
      let v1 := if nw - nw_w ≤ wi then v + upper_lower_mask i j else v
      if nw_w - 1 ≤ wi ∧ (wi - (nw_w - 1)) % nw_w = 0 then
        v1 + left_right_mask i j
      else v1 }

/-- `exp` extended to the masked logits: `exp(-inf) = 0`. -/
def expBot (expF : ℚ → ℚ) (v : WithBot ℚ) : ℚ :=
  WithBot.recBotCoe 0 expF v

/-- `.softmax(dim=-1)`: row-wise `exp(x_i) / Σ_j exp(x_j)` over the last
dimension, with the exponential kept abstract (`expF`). -/
def softmaxLastW (expF : ℚ → ℚ) (x : TensorW) : Tensor :=
  let n := lastDim x.shape
  { shape := x.shape
    data := (List.range x.shape.prod).map fun f =>
      let r := f / n
      expBot expF (x.data.getD f ⊥) /
        ∑ j ∈ Finset.range n, expBot expF (x.data.getD (r * n + j) ⊥) }

/-- `einsum('b h w i j, b h w j d -> b h w i d', attn, v)`. -/
def attnTimesV (a v : Tensor) : Tensor :=
  let b := sizeAt a.shape 0
  let h := sizeAt a.shape 1
  let w := sizeAt a.shape 2
  let n := sizeAt a.shape 3
  let nj := sizeAt a.shape 4
  let d := sizeAt v.shape 4
  { shape := [b, h, w, n, d]
    data := (List.range (b * h * w * n * d)).map fun f =>
      let di := f % d
      let f1 := f / d
      let i := f1 % n
      let r := f1 / n
      ∑ j ∈ Finset.range nj,
        a.data.getD ((r * n + i) * nj + j) 0 *
          v.data.getD ((r * nj + j) * d + di) 0 }

/-- `rearrange(out, 'b h (nw_h nw_w) (w_h w_w) d -> b (nw_h w_h) (nw_w w_w) (h d)',
h=heads, w_h=window_size, w_w=window_size, nw_h=nw_h, nw_w=nw_w)`. -/
def fromWindows (heads window_size nw_h nw_w : Nat) (x : Tensor) : Tensor :=
  let b := sizeAt x.shape 0
  let d := sizeAt x.shape 4
  let hd := heads * d
  { shape := [b, nw_h * window_size, nw_w * window_size, hd]
    data := (List.range
        (b * (nw_h * window_size) * (nw_w * window_size) * hd)).map fun f =>
      let ci := f % hd
      let f1 := f / hd
      let j := f1 % (nw_w * window_size)
      let f2 := f1 / (nw_w * window_size)
      let i := f2 % (nw_h * window_size)
      let bi := f2 / (nw_h * window_size)
      let hi := ci / d
      let di := ci % d
      let nwhI := i / window_size
      let whI := i % window_size
      let nwwI := j / window_size
      let wwI := j % window_size
      x.data.getD
        ((((bi * heads + hi) * (nw_h * nw_w) + (nwhI * nw_w + nwwI)) *
          (window_size * window_size) + (whI * window_size + wwI)) * d + di) 0 }

/-- `WindowAttention`: configuration flags together with the learned
parameters, kept abstract.  `scale` stands for `head_dim ** -0.5`, an
irrational real in the source, carried as an opaque coefficient. -/
structure WindowAttention where
  dim : Nat
  heads : Nat
  head_dim : Nat
  shifted : Bool
  window_size : Nat
  relative_pos_embedding : Bool
  scale : ℚ
  to_qkv_weight : Nat → Nat → ℚ
  pos_embedding : Nat → Nat → ℚ
  to_out_weight : Nat → Nat → ℚ
  to_out_bias : Nat → ℚ

/-- `WindowAttention.forward`, step by step: optional forward cyclic shift,
`to_qkv` (bias-free linear) and chunking, windowing, scaled dot products,
position bias (relative or absolute), the `-inf` masks when shifted, softmax,
weighted sum with values, un-windowing, `to_out`, optional back shift. -/
def WindowAttention.forward (m : WindowAttention) (expF : ℚ → ℚ)
    (x0 : Tensor) : Tensor :=
  let displacement := m.window_size / 2
  let x := if m.shifted then x0.cyclicShift (-(displacement : Int)) else x0
  let n_h := sizeAt x.shape 1
  let n_w := sizeAt x.shape 2
  let inner_dim := m.head_dim * m.heads
  let qkv := linearLayer m.to_qkv_weight (fun _ => 0) m.dim (inner_dim * 3) x
  let nw_h := n_h / m.window_size
  let nw_w := n_w / m.window_size
  let q := toWindows m.heads m.window_size (chunkPiece 0 qkv)
  let k := toWindows m.heads m.window_size (chunkPiece 1 qkv)
  let v := toWindows m.heads m.window_size (chunkPiece 2 qkv)
  let dots := dotsQK m.scale q k
  let pb : Nat → Nat → ℚ :=
    if m.relative_pos_embedding then relPosLookup m.pos_embedding m.window_size
    else m.pos_embedding
  let dotsW := (addPosBias pb dots).toW
  let dotsM :=
    if m.shifted then
      applyMasks nw_w (create_mask m.window_size displacement true false)
        (create_mask m.window_size displacement false true) dotsW
    else dotsW
  let attn := softmaxLastW expF dotsM
  let outw := attnTimesV attn v
  let merged := fromWindows m.heads m.window_size nw_h nw_w outw
  let out := linearLayer m.to_out_weight m.to_out_bias inner_dim m.dim merged
  if m.shifted then out.cyclicShift (displacement : Int) else out

/-! ## Theorems for claims C1, C2, C6, C8 -/

/-- C1: after registering a constructor under name `X`, building with a
configuration whose `special.type` is `X` returns the instance produced by
that constructor on the merged keyword arguments; looking up (or building
with) a name that was never registered returns `none` rather than failing. -/
theorem claim_C1_registry_lookup_and_build {V I : Type} (reg : Registry V I)
    (name : String) (cls : List (String × V) → I)
    (popt : Option (List (String × V))) (kwargs merged : List (String × V))
    (other : String) (kw : List (String × V))
    (hmerge : mergeKwargs kwargs (popt.getD []) = Except.ok merged)
    (hother : reg other = none) :
    build_special_module (register_special_module reg name cls)
        ⟨some ⟨some name, popt⟩⟩ kwargs = Except.ok (some (cls merged)) ∧
    get_special_module reg other kw = none ∧
    (reg name = none →
      build_special_module reg ⟨some ⟨some name, popt⟩⟩ kwargs =
        Except.ok none) := by
  refine ⟨?_, ?_, ?_⟩
  · simp [build_special_module, hmerge, get_special_module,
      register_special_module, Except.map]
  · simp [get_special_module, hother]
  · intro hnone
    simp [build_special_module, hmerge, get_special_module, hnone, Except.map]

/-- Witness for C1 at a concrete registry, configuration and kwargs. -/
theorem claim_C1_witness :
    build_special_module
        (register_special_module (V := Nat) (I := List (String × Nat))
          (fun _ => none) "X" (fun args => args))
        ⟨some ⟨some "X", some [("a", 1)]⟩⟩ [("b", 2)] =
      Except.ok (some [("b", 2), ("a", 1)]) ∧
    get_special_module (V := Nat) (I := List (String × Nat))
        (fun _ => none) "Y" [] = none ∧
    ((fun _ => none : Registry Nat (List (String × Nat))) "X" = none →
      build_special_module (V := Nat) (I := List (String × Nat))
          (fun _ => none) ⟨some ⟨some "X", some [("a", 1)]⟩⟩ [("b", 2)] =
        Except.ok none) :=
  claim_C1_registry_lookup_and_build (fun _ => none) "X" (fun args => args)
    (some [("a", 1)]) [("b", 2)] [("b", 2), ("a", 1)] "Y" []
    rfl rfl

/-- C2: `build_special_module` returns `none` without constructing anything
when `special.type` is absent; when it is present it delegates to
`get_special_module` on the union of the caller's kwargs and `special.params`,
and a key occurring in both makes the call fail. -/
theorem claim_C2_build_special_module_merge {V I : Type} (reg : Registry V I)
    (cfg : ModelConfig V) (kwargs : List (String × V)) :
    ((cfg.special.getD ⟨none, none⟩).type = none →
      build_special_module reg cfg kwargs = Except.ok none) ∧
    (∀ (t : String) (merged : List (String × V)),
      (cfg.special.getD ⟨none, none⟩).type = some t →
      mergeKwargs kwargs ((cfg.special.getD ⟨none, none⟩).params.getD []) =
        Except.ok merged →
      build_special_module reg cfg kwargs =
        Except.ok (get_special_module reg t merged)) ∧
    (∀ (t : String) (e : String),
      (cfg.special.getD ⟨none, none⟩).type = some t →
      mergeKwargs kwargs ((cfg.special.getD ⟨none, none⟩).params.getD []) =
        Except.error e →
      build_special_module reg cfg kwargs = Except.error e) := by
  refine ⟨?_, ?_, ?_⟩
  · intro habs
    simp [build_special_module, habs]
  · intro t merged htype hmerge
    simp [build_special_module, htype, hmerge, Except.map]
  · intro t e htype hmerge
    simp [build_special_module, htype, hmerge, Except.map]

/-- Witness for C2: an absent `type` builds nothing, a present `type` with
disjoint keys delegates, and a key collision fails. -/
theorem claim_C2_witness :
    build_special_module (V := Nat) (I := Nat) (fun _ => none)
        ⟨none⟩ [("a", 1)] = Except.ok none ∧
    build_special_module (V := Nat) (I := Nat) (fun _ => none)
        ⟨some ⟨some "T", some [("p", 3)]⟩⟩ [("a", 1)] =
      Except.ok (get_special_module (V := Nat) (I := Nat) (fun _ => none) "T"
        [("a", 1), ("p", 3)]) ∧
    build_special_module (V := Nat) (I := Nat) (fun _ => none)
        ⟨some ⟨some "T", some [("a", 2)]⟩⟩ [("a", 1)] =
      Except.error "got multiple values for keyword argument" := by
  refine ⟨?_, ?_, ?_⟩
  · exact (claim_C2_build_special_module_merge (fun _ => none) ⟨none⟩
      [("a", 1)]).1 rfl
  · exact (claim_C2_build_special_module_merge (fun _ => none)
      ⟨some ⟨some "T", some [("p", 3)]⟩⟩ [("a", 1)]).2.1 "T"
      [("a", 1), ("p", 3)] rfl rfl
  · exact (claim_C2_build_special_module_merge (fun _ => none)
      ⟨some ⟨some "T", some [("a", 2)]⟩⟩ [("a", 1)]).2.2 "T" _ rfl rfl

/-- C6: the paraphraser's forward pass runs encoder then decoder in training
mode, and the encoder only in evaluation mode. -/
theorem claim_C6_paraphraser_modes {T : Type} (encoder decoder : List (T → T))
    (z : T) :
    (Paraphraser4FactorTransfer.mk true encoder decoder).forward z =
      run_sequential decoder (run_sequential encoder z) ∧
    (Paraphraser4FactorTransfer.mk false encoder decoder).forward z =
      run_sequential encoder z :=
  ⟨rfl, rfl⟩

/-- Counterexample to C8 as stated: `Linear4CCKD`, one of the wrapper classes
taking mutually-exclusive `teacher_model`/`student_model` arguments,
constructed with neither, does not raise: its `__init__` completes and returns
a wrapper whose backbone reference is absent. -/
theorem claim_C8_counterexample :
    Linear4CCKD.init (M := Nat) (L := Nat) id id "p" "io" 7 none none =
      Except.ok ⟨none, false, "p", "io", 7⟩ := rfl

/-- C8 (amended): only `HeadRCNN` validates the backbone reference, raising
`ValueError('Either student_model or teacher_model has to be given.')` when
neither is supplied; `Linear4CCKD` performs no such check and constructs
successfully with an absent backbone reference. -/
theorem claim_C8_amended_backbone_check {M T C L : Type} (transformOf : M → T)
    (redesign_model : M → C → M) (head_rcnn : C)
    (wrap : Option M → Option M) (wrapLinear : L → L)
    (p io : String) (linear_obj : L) :
    HeadRCNN.init transformOf redesign_model head_rcnn none none =
      Except.error "Either student_model or teacher_model has to be given." ∧
    Linear4CCKD.init wrap wrapLinear p io linear_obj none none =
      Except.ok ⟨wrap none, false, p, io, wrapLinear linear_obj⟩ :=
  ⟨rfl, rfl⟩

/-! ## Theorems for claims C3, C4, C10 -/

/-- Rolling an axis by `s` and then by `-s` is the identity on indices. -/
theorem torchRollIndex_neg_roll (n : Nat) (s : Int) (i : Fin n) :
    torchRollIndex n (-s) (torchRollIndex n s i) = i := by
  have hn : (0 : Int) < (n : Int) := by exact_mod_cast i.pos
  have h1 : 0 ≤ ((i : Int) - s) % (n : Int) := Int.emod_nonneg _ (by omega)
  apply Fin.ext
  show ((((((i : Int) - s) % (n : Int)).toNat : Int) - -s) % (n : Int)).toNat
      = (i : Nat)
  rw [Int.toNat_of_nonneg h1, sub_neg_eq_add, Int.emod_add_emod,
    sub_add_cancel]
  have h2 : (i : Int) % (n : Int) = (i : Int) :=
    Int.emod_eq_of_lt (by positivity) (by exact_mod_cast i.isLt)
  rw [h2]
  simp

/-- C3: on a tensor of shape `(batch, height, width, channels)`, the forward
cyclic shift by `-d` followed by the back shift by `d` (both rolling the two
spatial dimensions) is the identity, so the shifted windowed-attention block
restores the original spatial alignment. -/
theorem claim_C3_cyclic_shift_roundtrip {b h w c : Nat} (d : Int)
    (x : Fin b → Fin h → Fin w → Fin c → ℚ) :
    CyclicShift.forward d (CyclicShift.forward (-d) x) = x := by
  funext bi i j ci
  show x bi (torchRollIndex h (-d) (torchRollIndex h d i))
      (torchRollIndex w (-d) (torchRollIndex w d j)) ci = x bi i j ci
  rw [torchRollIndex_neg_roll, torchRollIndex_neg_roll]

/-- C4: for every positive window size, every pairwise offset computed by
`get_relative_distances` lies in `[-(window_size-1), window_size-1]` per axis,
and after adding `window_size - 1` every entry of `relative_indices` lies in
`[0, 2*window_size - 2]`: no negative index reaches the position table. -/
theorem claim_C4_relative_distance_bounds (window_size : Nat)
    (hpos : 0 < window_size) :
    relativeDistanceBoundsCheck window_size = true := by
  have hmem : ∀ p : Int × Int,
      p ∈ ((List.range window_size).flatMap fun x =>
        (List.range window_size).map fun y => (Int.ofNat x, Int.ofNat y)) →
      0 ≤ p.1 ∧ p.1 < (window_size : Int) ∧
        0 ≤ p.2 ∧ p.2 < (window_size : Int) := by
    intro p hp
    rw [List.mem_flatMap] at hp
    obtain ⟨x, hx, hp2⟩ := hp
    rw [List.mem_map] at hp2
    obtain ⟨y, hy, hpe⟩ := hp2
    rw [List.mem_range] at hx hy
    subst hpe
    refine ⟨?_, ?_, ?_, ?_⟩ <;> · dsimp only; simp only [Int.ofNat_eq_natCast]; omega
  rw [relativeDistanceBoundsCheck, Bool.and_eq_true]
  constructor
  · rw [List.all_eq_true]
    intro row hrow
    rw [List.all_eq_true]
    intro p hp
    simp only [get_relative_distances, List.mem_map] at hrow
    obtain ⟨pi_, hpi, rfl⟩ := hrow
    simp only [List.mem_map] at hp
    obtain ⟨pj_, hpj, rfl⟩ := hp
    have h1 := hmem pi_ hpi
    have h2 := hmem pj_ hpj
    rw [decide_eq_true_eq]
    omega
  · rw [List.all_eq_true]
    intro row hrow
    rw [List.all_eq_true]
    intro q hq
    simp only [relative_indices, get_relative_distances, List.mem_map] at hrow
    obtain ⟨row0, ⟨pi_, hpi, rfl⟩, rfl⟩ := hrow
    simp only [List.mem_map] at hq
    obtain ⟨p0, ⟨pj_, hpj, rfl⟩, rfl⟩ := hq
    have h1 := hmem pi_ hpi
    have h2 := hmem pj_ hpj
    rw [decide_eq_true_eq]
    omega

/-- Witness for C4 at `window_size = 2`. -/
theorem claim_C4_witness : 0 < 2 ∧ relativeDistanceBoundsCheck 2 = true :=
  ⟨by decide, claim_C4_relative_distance_bounds 2 (by decide)⟩

/-- Invariant of the student-path loop of `AttnEmbed.__init__`, for a run
starting with the local variable `embed` already bound to `e0`: the stored
object at position `i` is a fresh sub-network for a `query`/`value` key, and
otherwise the object stored at the previous position (or `e0` at position 0). -/
theorem embedLoop_student_spec {P : Type} (dp : P) (es : List (String × P)) :
    ∀ (e0 : EmbedObj P) (out : List (String × EmbedObj P)),
      AttnEmbed.embedLoop false (some e0) es = Except.ok out →
      out.length = es.length ∧
      ∀ i, i < es.length →
        (out.getD i ("", EmbedObj.identity)).2 =
          (if goodStudentKey (es.getD i ("", dp)).1 then
            EmbedObj.fresh (es.getD i ("", dp)).2
          else if i = 0 then e0
          else (out.getD (i - 1) ("", EmbedObj.identity)).2) := by
  induction es with
  | nil =>
    intro e0 out h
    simp only [AttnEmbed.embedLoop] at h
    cases h
    exact ⟨rfl, by intro i hi; simp at hi⟩
  | cons head rest ih =>
    obtain ⟨k, p⟩ := head
    intro e0 out h
    have hstep : AttnEmbed.embedLoop false (some e0) ((k, p) :: rest) =
        (AttnEmbed.embedLoop false
          (some (if goodStudentKey k then EmbedObj.fresh p else e0)) rest).map
          fun tail =>
            (k, if goodStudentKey k then EmbedObj.fresh p else e0) :: tail := by
      by_cases hq : containsSub "query" k = true
      · simp [AttnEmbed.embedLoop, goodStudentKey, hq]
      · by_cases hv : containsSub "value" k = true
        · simp [AttnEmbed.embedLoop, goodStudentKey, hq, hv]
        · simp [AttnEmbed.embedLoop, goodStudentKey, hq, hv]
    rw [hstep] at h
    cases hrec : AttnEmbed.embedLoop false
        (some (if goodStudentKey k then EmbedObj.fresh p else e0)) rest with
    | error err => rw [hrec] at h; simp [Except.map] at h
    | ok tail =>
      rw [hrec] at h
      simp only [Except.map, Except.ok.injEq] at h
      subst h
      obtain ⟨hlen, hspec⟩ := ih _ tail hrec
      refine ⟨by simp [hlen], ?_⟩
      intro i hi
      cases i with
      | zero =>
        by_cases hg : goodStudentKey k = true
        · simp [hg]
        · simp [hg]
      | succ j =>
        simp only [List.getD_cons_succ]
        have hj : j < rest.length := by
          simpa using Nat.lt_of_succ_lt_succ hi
        have hthis := hspec j hj
        by_cases hg : goodStudentKey (rest.getD j ("", dp)).1 = true
        · rw [hthis, if_pos hg, if_pos hg]
        · rw [hthis, if_neg hg, if_neg hg]
          cases j with
          | zero => simp
          | succ l => simp

/-- C10: on the student path of `AttnEmbed.__init__`, a key containing
neither `'query'` nor `'value'` in the first iteration leaves the local
variable `embed` unbound (an `UnboundLocalError`); otherwise such a key
silently stores the sub-network object stored for the previous key, while a
`query`/`value` key stores a fresh sub-network built from its own
parameters. -/
theorem claim_C10_attn_embed_student_keys {P : Type} (dp : P)
    (es : List (String × P)) :
    (∀ (k : String) (p : P) (rest : List (String × P)),
      es = (k, p) :: rest → goodStudentKey k = false →
      AttnEmbed.init false es =
        Except.error "local variable referenced before assignment") ∧
    (∀ out, AttnEmbed.init false es = Except.ok out →
      out.length = es.length ∧
      ∀ i, i < es.length →
        (goodStudentKey (es.getD i ("", dp)).1 = true →
          (out.getD i ("", EmbedObj.identity)).2 =
            EmbedObj.fresh (es.getD i ("", dp)).2) ∧
        (goodStudentKey (es.getD i ("", dp)).1 = false → 0 < i →
          (out.getD i ("", EmbedObj.identity)).2 =
            (out.getD (i - 1) ("", EmbedObj.identity)).2)) := by
  constructor
  · intro k p rest hes hbad
    subst hes
    have hq : containsSub "query" k = false := by
      have := hbad
      unfold goodStudentKey at this
      exact (Bool.or_eq_false_iff.mp this).1
    have hv : containsSub "value" k = false := by
      have := hbad
      unfold goodStudentKey at this
      exact (Bool.or_eq_false_iff.mp this).2
    simp [AttnEmbed.init, AttnEmbed.embedLoop, hq, hv]
  · intro out hok
    cases es with
    | nil =>
      simp only [AttnEmbed.init, AttnEmbed.embedLoop] at hok
      cases hok
      exact ⟨rfl, by intro i hi; simp at hi⟩
    | cons head rest =>
      obtain ⟨k, p⟩ := head
      by_cases hg : goodStudentKey k = true
      · have hq : (containsSub "query" k = true) ∨
            (containsSub "query" k = false ∧ containsSub "value" k = true) := by
          unfold goodStudentKey at hg
          rcases Bool.or_eq_true_iff.mp hg with h | h
          · exact Or.inl h
          · by_cases hq0 : containsSub "query" k = true
            · exact Or.inl hq0
            · exact Or.inr ⟨Bool.eq_false_iff.mpr hq0, h⟩
        have hstep : AttnEmbed.init false ((k, p) :: rest) =
            (AttnEmbed.embedLoop false (some (EmbedObj.fresh p)) rest).map
              fun tail => (k, EmbedObj.fresh p) :: tail := by
          rcases hq with h | ⟨h1, h2⟩
          · simp [AttnEmbed.init, AttnEmbed.embedLoop, h]
          · simp [AttnEmbed.init, AttnEmbed.embedLoop, h1, h2]
        rw [hstep] at hok
        cases hrec : AttnEmbed.embedLoop false (some (EmbedObj.fresh p)) rest
          with
        | error err => rw [hrec] at hok; simp [Except.map] at hok
        | ok tail =>
          rw [hrec] at hok
          simp only [Except.map, Except.ok.injEq] at hok
          subst hok
          obtain ⟨hlen, hspec⟩ := embedLoop_student_spec dp rest
            (EmbedObj.fresh p) tail hrec
          refine ⟨by simp [hlen], ?_⟩
          intro i hi
          cases i with
          | zero =>
            refine ⟨fun _ => by simp, fun hbad _ => ?_⟩
            simp only [List.getD_cons_zero] at hbad
            simp [hg] at hbad
          | succ j =>
            have hj : j < rest.length := by
              simpa using Nat.lt_of_succ_lt_succ hi
            have hthis := hspec j hj
            constructor
            · intro hgood
              simp only [List.getD_cons_succ] at hgood ⊢
              rw [hthis, if_pos hgood]
            · intro hbad _
              simp only [List.getD_cons_succ] at hbad ⊢
              rw [hthis, if_neg (by rw [hbad]; exact Bool.false_ne_true)]
              cases j with
              | zero => simp
              | succ l => simp [Nat.succ_sub_one]
      · have hbad : goodStudentKey k = false := Bool.eq_false_iff.mpr hg
        have hq : containsSub "query" k = false := by
          unfold goodStudentKey at hbad
          exact (Bool.or_eq_false_iff.mp hbad).1
        have hv : containsSub "value" k = false := by
          unfold goodStudentKey at hbad
          exact (Bool.or_eq_false_iff.mp hbad).2
        rw [show AttnEmbed.init false ((k, p) :: rest) =
            Except.error "local variable referenced before assignment" by
          simp [AttnEmbed.init, AttnEmbed.embedLoop, hq, hv]] at hok
        cases hok

/-- Witness for C10: a bad first key errors; after a good key `query_a`, the
bad key `zzz` stores the object created for `query_a` (parameters `0`), not a
fresh one from its own parameters `1`. -/
theorem claim_C10_witness :
    AttnEmbed.init (P := Nat) false [("alpha", 0)] =
      Except.error "local variable referenced before assignment" ∧
    AttnEmbed.init (P := Nat) false [("query_a", 0), ("zzz", 1)] =
      Except.ok [("query_a", EmbedObj.fresh 0), ("zzz", EmbedObj.fresh 0)] ∧
    ([("query_a", EmbedObj.fresh 0), ("zzz", EmbedObj.fresh (0 : Nat))].getD 1
        ("", EmbedObj.identity)).2 =
      ([("query_a", EmbedObj.fresh 0), ("zzz", EmbedObj.fresh (0 : Nat))].getD
        0 ("", EmbedObj.identity)).2 := by
  have h1 := (claim_C10_attn_embed_student_keys (0 : Nat) [("alpha", 0)]).1
    "alpha" 0 [] rfl (by decide)
  have hok : AttnEmbed.init (P := Nat) false [("query_a", 0), ("zzz", 1)] =
      Except.ok [("query_a", EmbedObj.fresh 0), ("zzz", EmbedObj.fresh 0)] :=
    rfl
  have h2 := (((claim_C10_attn_embed_student_keys (0 : Nat)
    [("query_a", 0), ("zzz", 1)]).2 _ hok).2 1 (by decide)).2 (by decide)
    (by decide)
  exact ⟨h1, hok, h2⟩


/-! ## Theorems for claim C7 -/

/-- The L_p norm scales linearly under multiplication by a positive scalar
(the sign of the power sum is treated by cases, the negative branch through
the real-power convention `x ^ y = exp (log x * y) * cos (y * π)` for
`x < 0`). -/
theorem lp_norm_smul {n : Nat} (power : Nat) (hp : 0 < power) (c : ℝ)
    (hc : 0 < c) (z : Fin n → ℝ) :
    lp_norm power (c • z) = c * lp_norm power z := by
  have hpne : ((power : ℝ)) ≠ 0 := Nat.cast_ne_zero.mpr hp.ne'
  have hsum : (∑ i, (c • z) i ^ power) = c ^ power * ∑ i, z i ^ power := by
    simp [Pi.smul_apply, smul_eq_mul, mul_pow, Finset.mul_sum]
  rw [lp_norm, lp_norm, hsum]
  have hcpow : ((c ^ power : ℝ)) ^ ((1 : ℝ) / (power : ℝ)) = c := by
    rw [← Real.rpow_natCast c power, ← Real.rpow_mul hc.le, mul_one_div,
      div_self hpne, Real.rpow_one]
  rcases lt_trichotomy (∑ i, z i ^ power) 0 with hneg | hzero | hpos2
  · have hcp : (0 : ℝ) < c ^ power := pow_pos hc power
    have hcs : c ^ power * ∑ i, z i ^ power < 0 :=
      mul_neg_of_pos_of_neg hcp hneg
    rw [Real.rpow_def_of_neg hcs, Real.rpow_def_of_neg hneg,
      Real.log_mul hcp.ne' hneg.ne, add_mul, Real.exp_add]
    have hexp : Real.exp (Real.log (c ^ power) * ((1 : ℝ) / (power : ℝ)))
        = c := by
      rw [← Real.rpow_def_of_pos hcp]
      exact hcpow
    rw [hexp]
    ring
  · rw [hzero, mul_zero, Real.zero_rpow (one_div_ne_zero hpne), mul_zero]
  · rw [Real.mul_rpow (pow_pos hc power).le hpos2.le, hcpow]

/-- C7: the normalization step of `Normalizer4CRD` is scale-invariant: for a
nonzero post-linear output and a positive scalar `c`, normalizing `z` and
`c • z` gives the same result, independently of the preceding linear map. -/
theorem claim_C7_normalizer_scale_invariance {m n : Nat}
    (nz : Normalizer4CRD m n) (v : Fin m → ℝ) (c : ℝ)
    (hp : 0 < nz.power) (hz : nz.linear v ≠ 0) (hc : 0 < c) :
    normalize_step nz.power (c • nz.linear v) =
      normalize_step nz.power (nz.linear v) := by
  funext i
  simp only [normalize_step]
  rw [lp_norm_smul nz.power hp c hc (nz.linear v), Pi.smul_apply,
    smul_eq_mul]
  exact mul_div_mul_left _ _ hc.ne'

/-- Witness for C7 with the identity linear layer, power 2, the constant-one
feature vector and scalar 2. -/
theorem claim_C7_witness :
    normalize_step 2 ((2 : ℝ) • (fun _ => (1 : ℝ) : Fin 1 → ℝ)) =
      normalize_step 2 (fun _ => (1 : ℝ) : Fin 1 → ℝ) :=
  claim_C7_normalizer_scale_invariance (Normalizer4CRD.mk id 2) (fun _ => 1) 2
    (by norm_num)
    (by
      intro h
      have h0 := congrFun h 0
      simp at h0)
    (by norm_num)

/-! ## Theorems for claim C5 -/

/-- C5: with `shifted = false` and `relative_pos_embedding = false`, for an
input of shape `(batch, height, width, dim)` whose height and width are exact
multiples of the window size, `WindowAttention.forward` returns a tensor of
exactly the input's shape. -/
theorem claim_C5_window_attention_shape (m : WindowAttention) (expF : ℚ → ℚ)
    (x : Tensor) (b n_h n_w : Nat)
    (hshape : x.shape = [b, n_h, n_w, m.dim])
    (hs : m.shifted = false) (hr : m.relative_pos_embedding = false)
    (hh : m.window_size ∣ n_h) (hw : m.window_size ∣ n_w) :
    (m.forward expF x).shape = x.shape := by
  cases m with
  | mk dim heads head_dim shifted window_size rel scale w1 pe w2 bias2 =>
    cases x with
    | mk sh da =>
      replace hshape : sh = [b, n_h, n_w, dim] := hshape
      replace hs : shifted = false := hs
      subst hshape
      subst hs
      show [b, n_h / window_size * window_size,
        n_w / window_size * window_size, dim] = [b, n_h, n_w, dim]
      rw [Nat.div_mul_cancel hh, Nat.div_mul_cancel hw]

/-- Witness for C5: a concrete unshifted, non-relative attention block on a
`(1, 2, 2, 1)` input with window size 2. -/
theorem claim_C5_witness :
    ((WindowAttention.mk 1 1 1 false 2 false 1 (fun _ _ => 0) (fun _ _ => 0)
        (fun _ _ => 0) (fun _ => 0)).forward (fun _ => 1)
      (Tensor.mk [1, 2, 2, 1] [0, 0, 0, 0])).shape =
      (Tensor.mk [1, 2, 2, 1] [0, 0, 0, 0]).shape :=
  claim_C5_window_attention_shape _ _ _ 1 2 2 rfl rfl rfl (by decide)
    (by decide)

/-! ## Theorems for claim C9 -/

/-- `getD` applied to a mapped range. -/
theorem rangeMap_getD {α : Type} (n k : Nat) (f : Nat → α) (d : α)
    (h : k < n) : ((List.range n).map f).getD k d = f k := by
  rw [List.getD_eq_getElem?_getD, List.getElem?_map, List.getElem?_range h]
  rfl

/-- `getD` commutes with `map` at an in-range index. -/
theorem map_getD_lt {α β : Type} (l : List α) (f : α → β) (k : Nat) (d : β)
    (d0 : α) (h : k < l.length) :
    (l.map f).getD k d = f (l.getD k d0) := by
  rw [List.getD_eq_getElem?_getD, List.getElem?_map,
    List.getElem?_eq_getElem h, List.getD_eq_getElem?_getD,
    List.getElem?_eq_getElem h]
  rfl

/-- Row-major flattening stays within bounds. -/
theorem flat_lt {i a j b : Nat} (hi : i < a) (hj : j < b) :
    i * b + j < a * b := by
  calc i * b + j < i * b + b := by omega
    _ = (i + 1) * b := by ring
    _ ≤ a * b := Nat.mul_le_mul_right b hi

/-- Extracting the last coordinate of a row-major index. -/
theorem flat_mod {x j m : Nat} (h : j < m) : (x * m + j) % m = j := by
  rw [Nat.mul_comm x m, Nat.mul_add_mod, Nat.mod_eq_of_lt h]

/-- Removing the last coordinate of a row-major index. -/
theorem flat_div {x j m : Nat} (h : j < m) : (x * m + j) / m = x := by
  have hm : 0 < m := Nat.lt_of_le_of_lt (Nat.zero_le j) h
  rw [Nat.add_comm (x * m) j, Nat.mul_comm x m,
    Nat.add_mul_div_left j x hm, Nat.div_eq_of_lt h, Nat.zero_add]

/-- The strided slice `nw_w-1::nw_w` selects exactly the windows congruent to
`nw_w - 1` modulo `nw_w`. -/
theorem stride_slice_iff {nw_w wi : Nat} (h : 0 < nw_w) :
    (nw_w - 1 ≤ wi ∧ (wi - (nw_w - 1)) % nw_w = 0) ↔
      wi % nw_w = nw_w - 1 := by
  constructor
  · rintro ⟨h1, h2⟩
    obtain ⟨q, hq⟩ := Nat.dvd_of_mod_eq_zero h2
    have hwi : wi = (nw_w - 1) + nw_w * q := by omega
    rw [hwi, Nat.mul_comm nw_w q, Nat.add_mul_mod_self_right,
      Nat.mod_eq_of_lt (by omega)]
  · intro h2
    have hle : nw_w - 1 ≤ wi := by
      have := Nat.mod_le wi nw_w
      omega
    refine ⟨hle, ?_⟩
    have hdec := Nat.div_add_mod wi nw_w
    have hsub : wi - (nw_w - 1) = nw_w * (wi / nw_w) := by omega
    rw [hsub, Nat.mul_mod_right]

/-- The entry of the masked logits at multi-index `(bi, hi, wi, i, j)`: the
flat slicing of `applyMasks` touches exactly the windows `wi` in the last
`nw_w` of the window axis (adding the upper/lower mask) and the windows
selected by the stride-`nw_w` slice starting at `nw_w - 1` (adding the
left/right mask). -/
theorem applyMasks_entry (nw_w : Nat) (ul lr : Nat → Nat → WithBot ℚ)
    (dq : Tensor) (b heads nwv n3 n4 : Nat)
    (hsh : dq.shape = [b, heads, nwv, n3, n4])
    (hlen : dq.data.length = dq.shape.prod)
    (bi hi wi i j : Nat) (hbi : bi < b) (hhi : hi < heads) (hwi : wi < nwv)
    (hii : i < n3) (hjj : j < n4) :
    (applyMasks nw_w ul lr dq.toW).data.getD
        ((((bi * heads + hi) * nwv + wi) * n3 + i) * n4 + j) ⊥ =
      (if nw_w - 1 ≤ wi ∧ (wi - (nw_w - 1)) % nw_w = 0 then
        (if nwv - nw_w ≤ wi then
          ((dq.data.getD
            ((((bi * heads + hi) * nwv + wi) * n3 + i) * n4 + j) 0 : ℚ) :
              WithBot ℚ) + ul i j
        else ((dq.data.getD
            ((((bi * heads + hi) * nwv + wi) * n3 + i) * n4 + j) 0 : ℚ) :
              WithBot ℚ)) + lr i j
      else
        (if nwv - nw_w ≤ wi then
          ((dq.data.getD
            ((((bi * heads + hi) * nwv + wi) * n3 + i) * n4 + j) 0 : ℚ) :
              WithBot ℚ) + ul i j
        else ((dq.data.getD
            ((((bi * heads + hi) * nwv + wi) * n3 + i) * n4 + j) 0 : ℚ) :
              WithBot ℚ))) := by
  cases dq with
  | mk sh da =>
    replace hsh : sh = [b, heads, nwv, n3, n4] := hsh
    subst hsh
    replace hlen : da.length = ([b, heads, nwv, n3, n4] : List Nat).prod :=
      hlen
    have h1 : bi * heads + hi < b * heads := flat_lt hbi hhi
    have h2 : (bi * heads + hi) * nwv + wi < b * heads * nwv := flat_lt h1 hwi
    have h3 : ((bi * heads + hi) * nwv + wi) * n3 + i <
        b * heads * nwv * n3 := flat_lt h2 hii
    have h4 : (((bi * heads + hi) * nwv + wi) * n3 + i) * n4 + j <
        b * heads * nwv * n3 * n4 := flat_lt h3 hjj
    have hprod : ([b, heads, nwv, n3, n4] : List Nat).prod =
        b * heads * nwv * n3 * n4 := by
      simp only [List.prod_cons, List.prod_nil]
      ring
    have e1 : ((((bi * heads + hi) * nwv + wi) * n3 + i) * n4 + j) % n4 = j :=
      flat_mod hjj
    have e2 : ((((bi * heads + hi) * nwv + wi) * n3 + i) * n4 + j) / n4 =
        ((bi * heads + hi) * nwv + wi) * n3 + i := flat_div hjj
    have e3 : (((bi * heads + hi) * nwv + wi) * n3 + i) % n3 = i :=
      flat_mod hii
    have e4 : (((bi * heads + hi) * nwv + wi) * n3 + i) / n3 =
        (bi * heads + hi) * nwv + wi := flat_div hii
    have e5 : ((bi * heads + hi) * nwv + wi) % nwv = wi := flat_mod hwi
    have hget : (da.map fun q => ((q : ℚ) : WithBot ℚ)).getD
        ((((bi * heads + hi) * nwv + wi) * n3 + i) * n4 + j) ⊥ =
        ((da.getD ((((bi * heads + hi) * nwv + wi) * n3 + i) * n4 + j) 0 : ℚ)
          : WithBot ℚ) :=
      map_getD_lt da _ _ ⊥ 0 (by rw [hlen, hprod]; exact h4)
    have s2 : ([b, heads, nwv, n3, n4] : List Nat).getD 2 0 = nwv := rfl
    have s3 : ([b, heads, nwv, n3, n4] : List Nat).getD 3 0 = n3 := rfl
    have s4 : ([b, heads, nwv, n3, n4] : List Nat).getD 4 0 = n4 := rfl
    simp only [applyMasks, Tensor.toW]
    rw [hprod, rangeMap_getD _ _ _ ⊥ h4]
    dsimp only [sizeAt]
    rw [s2, s3, s4, e1, e2, e3, e4, e5, hget]

/-- Counterexample to C9 as stated: with `window_size = 2` and logits of
shape `(1, 1, 6, 4, 4)` (window grid 2 × 3, so `nw_w = 3 ≠ window_size`),
the masking step puts `-inf` into window index 3, which is in the last
`nw_w = 3` windows but not in the last `window_size = 2` windows: the masks
are indexed by the number of windows per row, not by the window size. -/
theorem claim_C9_counterexample :
    (Tensor.mk [1, 1, 6, 4, 4] (List.replicate 96 0)).toW.data.getD 56 ⊥ =
      ((0 : ℚ) : WithBot ℚ) ∧
    (applyMasks 3 (create_mask 2 1 true false) (create_mask 2 1 false true)
        (Tensor.mk [1, 1, 6, 4, 4] (List.replicate 96 0)).toW).data.getD 56 ⊥
      = (⊥ : WithBot ℚ) ∧
    ¬ (2 * 3 - 2 ≤ 3) ∧ (2 * 3 - 3 ≤ 3) := by
  refine ⟨by decide, by decide, by decide, by decide⟩

/-- C9 (amended): in the shifted forward pass the `-inf` masks are added to
the logits through the slices `dots[:, :, -nw_w:]` and
`dots[:, :, nw_w-1::nw_w]`, where `nw_w` is the number of windows per row
(width divided by window size), not the window size: logits of windows
outside both slices are unchanged; in the last `nw_w` windows the
upper/lower mask sets the entries across the vertical wrap seam to `-inf`;
in every `nw_w`-th window starting at offset `nw_w - 1` the left/right mask
sets the entries across the horizontal wrap seam to `-inf`. -/
theorem claim_C9_amended_mask_application
    (ws d nw_h nw_w b heads : Nat) (dq : Tensor)
    (hsh : dq.shape = [b, heads, nw_h * nw_w, ws * ws, ws * ws])
    (hlen : dq.data.length = dq.shape.prod) (hnww : 0 < nw_w)
    (bi hi wi i j : Nat) (hbi : bi < b) (hhi : hi < heads)
    (hwi : wi < nw_h * nw_w) (hii : i < ws * ws) (hjj : j < ws * ws) :
    (wi < nw_h * nw_w - nw_w → ¬ wi % nw_w = nw_w - 1 →
      (applyMasks nw_w (create_mask ws d true false)
          (create_mask ws d false true) dq.toW).data.getD
        ((((bi * heads + hi) * (nw_h * nw_w) + wi) * (ws * ws) + i) *
          (ws * ws) + j) ⊥ =
        ((dq.data.getD
          ((((bi * heads + hi) * (nw_h * nw_w) + wi) * (ws * ws) + i) *
            (ws * ws) + j) 0 : ℚ) : WithBot ℚ)) ∧
    (nw_h * nw_w - nw_w ≤ wi →
      ((ws * ws - d * ws ≤ i ∧ j < ws * ws - d * ws) ∨
        (i < ws * ws - d * ws ∧ ws * ws - d * ws ≤ j)) →
      (applyMasks nw_w (create_mask ws d true false)
          (create_mask ws d false true) dq.toW).data.getD
        ((((bi * heads + hi) * (nw_h * nw_w) + wi) * (ws * ws) + i) *
          (ws * ws) + j) ⊥ = ⊥) ∧
    (wi % nw_w = nw_w - 1 →
      ((ws - d ≤ i % ws ∧ j % ws < ws - d) ∨
        (i % ws < ws - d ∧ ws - d ≤ j % ws)) →
      (applyMasks nw_w (create_mask ws d true false)
          (create_mask ws d false true) dq.toW).data.getD
        ((((bi * heads + hi) * (nw_h * nw_w) + wi) * (ws * ws) + i) *
          (ws * ws) + j) ⊥ = ⊥) := by
  have hentry := applyMasks_entry nw_w (create_mask ws d true false)
    (create_mask ws d false true) dq b heads (nw_h * nw_w) (ws * ws) (ws * ws)
    hsh hlen bi hi wi i j hbi hhi hwi hii hjj
  refine ⟨?_, ?_, ?_⟩
  · intro hout hstr
    rw [hentry,
      if_neg (fun hc => hstr ((stride_slice_iff hnww).mp hc)),
      if_neg (by omega)]
  · intro hin hreg
    have hul : create_mask ws d true false i j = ⊥ := by
      simp only [create_mask]
      rw [if_neg (by simp), if_pos ⟨trivial, hreg⟩]
    rw [hentry]
    by_cases hstr : nw_w - 1 ≤ wi ∧ (wi - (nw_w - 1)) % nw_w = 0
    · rw [if_pos hstr, if_pos hin, hul, WithBot.add_bot, WithBot.bot_add]
    · rw [if_neg hstr, if_pos hin, hul, WithBot.add_bot]
  · intro hstr hreg
    have hlr : create_mask ws d false true i j = ⊥ := by
      simp only [create_mask]
      rw [if_pos ⟨trivial, hreg⟩]
    rw [hentry, if_pos ((stride_slice_iff hnww).mpr hstr), hlr,
      WithBot.add_bot]

/-- Witness for C9 (amended): the vertical-seam part applied at window 3 of a
2 × 3 window grid with `window_size = 2`. -/
theorem claim_C9_witness :
    (applyMasks 3 (create_mask 2 1 true false) (create_mask 2 1 false true)
        (Tensor.mk [1, 1, 6, 4, 4] (List.replicate 96 0)).toW).data.getD 56 ⊥
      = (⊥ : WithBot ℚ) :=
  (claim_C9_amended_mask_application 2 1 2 3 1 1
      (Tensor.mk [1, 1, 6, 4, 4] (List.replicate 96 0)) rfl (by decide)
      (by decide) 0 0 3 2 0 (by decide) (by decide) (by decide) (by decide)
      (by decide)).2.1 (by decide) (Or.inl (by decide))
